import Mathlib

/-!
Verification development for the document-parsing subsystem of the
taris-agent repository (`src/common/document_parsers.py` and
`src/react_agent/utils.py`).

Shallow embedding conventions:
* Python `bytes` values are `List Nat`, each element intended to be `< 256`.
* Python `str` values are Lean `String`s; `str.lower`, `str.strip`,
  `str.startswith`, `str.endswith` and `"".join` are re-implemented over
  the character list (`pyLower`, `pyStrip`, `strStartsWith`, `strEndsWith`,
  `strJoin`) with Python's semantics on the inputs that occur here.
* Fallible operations (`base64.b64decode`, `bytes.decode`) return
  `Except`/`Option`; a `try/except` block in the source becomes a `match`
  on that result, so a function whose body catches every exception becomes
  a total Lean function returning `String`.
* The external libraries PyPDF2 and python-docx (optional dependencies,
  not part of this repository) are modelled by an `ExternalEnv` record:
  a flag for availability of each import and an oracle for the text the
  library would produce (or the exception it would raise).
* The CPython codecs `utf-8`, `gbk` and `latin-1` are external to the
  repository as well.  `utf8Decode` implements RFC 3629 UTF-8 exactly
  (what CPython implements); `gbkDecode` implements the GBK byte
  structure (ASCII bytes pass through, two-byte sequences have lead
  0x81..0xFE and trail 0x40..0xFE excluding 0x7F) with the code-point
  table abstracted by the injection `gbkPairChar`, since no claim depends
  on which character a given GBK pair denotes; `latin1Decode` maps each
  byte `b < 256` to the code point `b`.
-/

set_option autoImplicit false

/-- Python `str.isspace` for the ASCII whitespace characters that
`str.strip()` removes. -/
def pyIsSpace (c : Char) : Bool :=
  c == ' ' || c == '\t' || c == '\n' || c == '\r' || c == '\x0b' || c == '\x0c'

/-- Python `str.strip()` on the character list: drop whitespace from the
front, then from the back. -/
def pyStripList (cs : List Char) : List Char :=
  ((cs.dropWhile pyIsSpace).reverse.dropWhile pyIsSpace).reverse

/-- Python `str.strip()`. -/
def pyStrip (s : String) : String :=
  String.mk (pyStripList s.data)

/-- Python `str.lower()` (ASCII case folding, which is all the source's
suffix checks rely on). -/
def pyLower (s : String) : String :=
  String.mk (s.data.map Char.toLower)

/-- Python `str.endswith(post)`. -/
def strEndsWith (s post : String) : Bool :=
  post.data.isSuffixOf s.data

/-- Python `str.startswith(pre)`. -/
def strStartsWith (s pre : String) : Bool :=
  pre.data.isPrefixOf s.data

/-- Python `"".join(l)`. -/
def strJoin : List String → String
  | [] => ""
  | s :: rest => s ++ strJoin rest

/-- `True` iff the string neither starts nor ends with a Python whitespace
character (i.e. `str.strip()` would leave it unchanged at both edges). -/
def noEdgeSpace (s : String) : Bool :=
  (match s.data.head? with
   | none => true
   | some c => !pyIsSpace c) &&
  (match s.data.getLast? with
   | none => true
   | some c => !pyIsSpace c)

/-- Value of a base64 alphabet character (`A-Z`, `a-z`, `0-9`, `+`, `/`). -/
def b64CharVal (c : Char) : Option Nat :=
  let n := c.toNat
  if 65 ≤ n && n ≤ 90 then some (n - 65)
  else if 97 ≤ n && n ≤ 122 then some (n - 71)
  else if 48 ≤ n && n ≤ 57 then some (n + 4)
  else if n == 43 then some 62
  else if n == 47 then some 63
  else none

/-- Decode groups of four base64 characters into bytes; `=` padding is only
legal at the end, as in CPython's `binascii.a2b_base64`. -/
def b64DecodeGroups : List Char → Except String (List Nat)
  | [] => Except.ok []
  | c1 :: c2 :: c3 :: c4 :: rest =>
    match b64CharVal c1, b64CharVal c2 with
    | some v1, some v2 =>
      if c3 == '=' then
        if c4 == '=' && rest.isEmpty then Except.ok [v1 * 4 + v2 / 16]
        else Except.error "Invalid base64-encoded string"
      else
        match b64CharVal c3 with
        | some v3 =>
          if c4 == '=' then
            if rest.isEmpty then Except.ok [v1 * 4 + v2 / 16, (v2 % 16) * 16 + v3 / 4]
            else Except.error "Excess data after padding"
          else
            match b64CharVal c4 with
            | some v4 =>
              (b64DecodeGroups rest).map
                (fun bs => (v1 * 4 + v2 / 16) :: ((v2 % 16) * 16 + v3 / 4) ::
                  ((v3 % 4) * 64 + v4) :: bs)
            | none => Except.error "Invalid base64-encoded string"
        | none => Except.error "Invalid base64-encoded string"
    | _, _ => Except.error "Invalid base64-encoded string"
  | _ => Except.error "Invalid base64-encoded string"

/-- Python `base64.b64decode(s)` on a `str` argument: the string must be
ASCII, characters outside the alphabet and padding are discarded, and the
remaining length must be a multiple of four; an `Except.error` models the
`binascii.Error`/`ValueError` the call can raise. -/
def b64decode (s : String) : Except String (List Nat) :=
  if s.data.all (fun c => c.toNat < 128) then
    let cs := s.data.filter (fun c => (b64CharVal c).isSome || c == '=')
    if cs.length % 4 == 0 then b64DecodeGroups cs
    else Except.error "Invalid base64-encoded string"
  else Except.error "string argument should contain only ASCII characters"

/-- A byte in `0x80..0xBF`, i.e. a UTF-8 continuation byte. -/
def utf8Cont (b : Nat) : Bool :=
  128 ≤ b && b < 192

/-- RFC 3629 UTF-8 decoding of a byte list into characters (rejecting
overlong forms, surrogates and code points above U+10FFFF, exactly as
CPython's strict `bytes.decode("utf-8")` does). -/
def utf8DecodeChars : List Nat → Option (List Char)
  | [] => some []
  | b1 :: rest =>
    if b1 < 128 then
      (utf8DecodeChars rest).map (fun cs => Char.ofNat b1 :: cs)
    else if b1 < 194 then none
    else if b1 < 224 then
      match rest with
      | b2 :: rest2 =>
        if utf8Cont b2 then
          (utf8DecodeChars rest2).map
            (fun cs => Char.ofNat ((b1 - 192) * 64 + (b2 - 128)) :: cs)
        else none
      | [] => none
    else if b1 < 240 then
      match rest with
      | b2 :: b3 :: rest3 =>
        let lo2 := if b1 == 224 then 160 else 128
        let hi2 := if b1 == 237 then 160 else 192
        if (lo2 ≤ b2 && b2 < hi2) && utf8Cont b3 then
          (utf8DecodeChars rest3).map
            (fun cs => Char.ofNat ((b1 - 224) * 4096 + (b2 - 128) * 64 + (b3 - 128)) :: cs)
        else none
      | _ => none
    else if b1 < 245 then
      match rest with
      | b2 :: b3 :: b4 :: rest4 =>
        let lo2 := if b1 == 240 then 144 else 128
        let hi2 := if b1 == 244 then 144 else 192
        if ((lo2 ≤ b2 && b2 < hi2) && utf8Cont b3) && utf8Cont b4 then
          (utf8DecodeChars rest4).map
            (fun cs => Char.ofNat ((b1 - 240) * 262144 + (b2 - 128) * 4096 +
              (b3 - 128) * 64 + (b4 - 128)) :: cs)
        else none
      | _ => none
    else none

/-- Python `file_bytes.decode("utf-8")`: `none` models the
`UnicodeDecodeError`. -/
def utf8Decode (bs : List Nat) : Option String :=
  (utf8DecodeChars bs).map String.mk

/-- The character a GBK lead/trail byte pair denotes.  The actual GBK
table lives in the CPython codec, outside this repository; no claim
depends on the concrete character, so the pair is mapped by this
injection into a printable plane instead. -/
def gbkPairChar (b1 b2 : Nat) : Char :=
  Char.ofNat (65536 + b1 * 256 + b2)

/-- GBK byte-structure decoding: ASCII bytes pass through; a lead byte in
`0x81..0xFE` must be followed by a trail byte in `0x40..0xFE` other than
`0x7F`. -/
def gbkDecodeChars : List Nat → Option (List Char)
  | [] => some []
  | b1 :: rest =>
    if b1 < 128 then
      (gbkDecodeChars rest).map (fun cs => Char.ofNat b1 :: cs)
    else if 129 ≤ b1 && b1 ≤ 254 then
      match rest with
      | b2 :: rest2 =>
        if (64 ≤ b2 && b2 ≤ 254) && b2 != 127 then
          (gbkDecodeChars rest2).map (fun cs => gbkPairChar b1 b2 :: cs)
        else none
      | [] => none
    else none

/-- Python `file_bytes.decode("gbk")`: `none` models the
`UnicodeDecodeError`. -/
def gbkDecode (bs : List Nat) : Option String :=
  (gbkDecodeChars bs).map String.mk

/-- Latin-1 decoding of a byte list: every byte below 256 maps to the
code point of the same value. -/
def latin1DecodeChars : List Nat → Option (List Char)
  | [] => some []
  | b :: rest =>
    if b < 256 then
      (latin1DecodeChars rest).map (fun cs => Char.ofNat b :: cs)
    else none

/-- Python `file_bytes.decode("latin-1")`: `none` only on a non-byte
(≥ 256) entry, which real `bytes` never contain. -/
def latin1Decode (bs : List Nat) : Option String :=
  (latin1DecodeChars bs).map String.mk

/-- The `supports`/`parse` contract of `DocumentParser` in
`document_parsers.py` (a parser variant is a pair of those operations). -/
structure DocumentParser where
  supports : String → String → Bool
  parse : List Nat → String → String

/-- Availability and behaviour of the optional external libraries consumed
by `document_parsers.py`: a flag for whether each `import` succeeds, and an
oracle for the text the library extracts (with `Except.error` modelling an
exception raised while reading the document). -/
structure ExternalEnv where
  pypdf2Available : Bool
  pdfPages : List Nat → Except String (List String)
  pythonDocxAvailable : Bool
  docxParagraphs : List Nat → Except String (List String)

/-- `PDFParser.supports` from the source. -/
def PDFParser.supports (mime_type filename : String) : Bool :=
  mime_type == "application/pdf" || strEndsWith (pyLower filename) ".pdf"

/-- `PDFParser.parse` from the source: on `ImportError` return the
missing-library placeholder; join the pages' text with newlines and strip;
render any exception as the bracketed PDF error message. -/
def PDFParser.parse (env : ExternalEnv) (file_bytes : List Nat) (_filename : String) : String :=
  if env.pypdf2Available then
    match env.pdfPages file_bytes with
    | Except.ok pages => pyStrip (strJoin (pages.map (fun p => p ++ "\n")))
    | Except.error e => "[PDF 处理错误: " ++ e ++ "]"
  else "[PDF 处理需要安装 PyPDF2 库]"

/-- `DocxParser.supports` from the source. -/
def DocxParser.supports (mime_type filename : String) : Bool :=
  mime_type == "application/msword" ||
  mime_type == "application/vnd.openxmlformats-officedocument.wordprocessingml.document" ||
  strEndsWith (pyLower filename) ".doc" ||
  strEndsWith (pyLower filename) ".docx"

/-- `DocxParser.parse` from the source. -/
def DocxParser.parse (env : ExternalEnv) (file_bytes : List Nat) (_filename : String) : String :=
  if env.pythonDocxAvailable then
    match env.docxParagraphs file_bytes with
    | Except.ok paras => pyStrip (strJoin (paras.map (fun p => p ++ "\n")))
    | Except.error e => "[DOCX 处理错误: " ++ e ++ "]"
  else "[DOCX 处理需要安装 python-docx 库]"

/-- `TextParser.supports` from the source. -/
def TextParser.supports (mime_type filename : String) : Bool :=
  strStartsWith mime_type "text/" ||
  strEndsWith (pyLower filename) ".txt" ||
  strEndsWith (pyLower filename) ".md" ||
  strEndsWith (pyLower filename) ".csv" ||
  strEndsWith (pyLower filename) ".json" ||
  strEndsWith (pyLower filename) ".xml" ||
  strEndsWith (pyLower filename) ".html" ||
  strEndsWith (pyLower filename) ".htm"

/-- `TextParser.parse` from the source: try UTF-8, then GBK, then Latin-1;
if all three decodes raise, return the cannot-decode placeholder.  (The
outer `except Exception` of the source is unreachable in the model: none of
the remaining operations can raise.) -/
def TextParser.parse (file_bytes : List Nat) (filename : String) : String :=
  match utf8Decode file_bytes with
  | some s => s
  | none =>
    match gbkDecode file_bytes with
    | some s => s
    | none =>
      match latin1Decode file_bytes with
      | some s => s
      | none => "[无法解码文本文件 " ++ filename ++ "]"

/-- The PDF parser variant, as registered by the factory. -/
def pdfVariant (env : ExternalEnv) : DocumentParser :=
  ⟨PDFParser.supports, PDFParser.parse env⟩

/-- The Word-document parser variant, as registered by the factory. -/
def docxVariant (env : ExternalEnv) : DocumentParser :=
  ⟨DocxParser.supports, DocxParser.parse env⟩

/-- The text parser variant, as registered by the factory. -/
def textVariant : DocumentParser :=
  ⟨TextParser.supports, TextParser.parse⟩

/-- `DocumentParserFactory.__init__`: the registry's initial ordered
sequence `[PDFParser(), DocxParser(), TextParser()]`. -/
def builtinRegistry (env : ExternalEnv) : List DocumentParser :=
  [pdfVariant env, docxVariant env, textVariant]

/-- `DocumentParserFactory.get_parser`: first parser in the sequence whose
`supports` predicate holds, `none` if no match. -/
def getParser (ps : List DocumentParser) (mime_type filename : String) :
    Option DocumentParser :=
  ps.find? (fun p => p.supports mime_type filename)

/-- `DocumentParserFactory.register_parser`: `self._parsers.append(parser)`
in state-passing form — the registry sequence with the new parser appended
at the end. -/
def registerParser (ps : List DocumentParser) (p : DocumentParser) :
    List DocumentParser :=
  ps ++ [p]

/-- `extract_file_content` from the source.  The body's only operation that
can raise is the base64 decode; the `match` on its `Except` result embeds
the outer `try/except Exception`, so the function is total. -/
def extract_file_content (env : ExternalEnv)
    (base64_data filename mime_type : String) : String :=
  match b64decode base64_data with
  | Except.error e => "[处理文件 " ++ filename ++ " 时出错: " ++ e ++ "]"
  | Except.ok file_bytes =>
    match getParser (builtinRegistry env) mime_type filename with
    | none => "[不支持的文件类型: " ++ mime_type ++ " for " ++ filename ++ "]"
    | some p => p.parse file_bytes filename

/-- A structured message-content part: the dictionary fields read by
`process_message_content` (`item.get(...)`; `none` models an absent key,
and `metadataFilename` is `metadata.get("filename")`). -/
structure PartDict where
  type : Option String
  text : Option String
  source_type : Option String
  data : Option String
  mime_type : Option String
  metadataFilename : Option String
deriving DecidableEq

/-- One element of a content list: a plain string or a dictionary part. -/
inductive ContentItem where
  | str (s : String) : ContentItem
  | dict (d : PartDict) : ContentItem
deriving DecidableEq

/-- A message's `content` field: a plain string or a list of parts. -/
inductive MessageContent where
  | str (s : String) : MessageContent
  | parts (items : List ContentItem) : MessageContent
deriving DecidableEq

/-- A message as `process_messages` sees it: its `content`, whether the
object has a `model_copy` method (pydantic messages do), and its remaining
fields, kept opaque as a key-value list. -/
structure PyMessage where
  content : MessageContent
  hasModelCopy : Bool
  otherFields : List (String × String)
deriving DecidableEq

/-- The loop body of `process_message_content`: the string a single item
appends to `processed_content`, `none` when the item is skipped. -/
def processItem (env : ExternalEnv) : ContentItem → Option String
  | ContentItem.str s => some s
  | ContentItem.dict d =>
    if d.type == some "text" then some (d.text.getD "")
    else if d.type == some "file" && d.source_type == some "base64" then
      some ("\n\n文件内容 (" ++ d.metadataFilename.getD "unknown_file" ++ "):\n" ++
        extract_file_content env (d.data.getD "")
          (d.metadataFilename.getD "unknown_file")
          (d.mime_type.getD "application/octet-stream"))
    else none

/-- `process_message_content` from the source: a plain string passes
through; a part list is reduced to the stripped concatenation of its
items' contributions. -/
def process_message_content (env : ExternalEnv) : MessageContent → String
  | MessageContent.str s => s
  | MessageContent.parts items =>
    pyStrip (strJoin (items.filterMap (processItem env)))

/-- The per-message step of `process_messages`: same message with the
content replaced by the processed content. -/
def processOneMessage (env : ExternalEnv) (m : PyMessage) : PyMessage :=
  ⟨MessageContent.str (process_message_content env m.content),
    m.hasModelCopy, m.otherFields⟩

/-- `process_messages` from the source: the returned list (each element is
the copy — or, without `model_copy`, the original object — after its
`content` was assigned). -/
def process_messages (env : ExternalEnv) (ms : List PyMessage) : List PyMessage :=
  ms.map (processOneMessage env)

/-- The state of the caller's original message objects after
`process_messages` returns: a message with `model_copy` was copied before
the assignment and is untouched; a message without it was assigned in
place. -/
def messagesAfterCall (env : ExternalEnv) (ms : List PyMessage) : List PyMessage :=
  ms.map (fun m => if m.hasModelCopy then m else processOneMessage env m)

/-- An environment in which neither optional library is installed (used to
instantiate closed statements; the claims under test do not depend on the
external libraries). -/
def trivialEnv : ExternalEnv :=
  ⟨false, fun _ => Except.ok [], false, fun _ => Except.ok []⟩

/-- Auxiliary: the head of `dropWhile p l` does not satisfy `p`. -/
theorem head?_dropWhile_not (p : Char → Bool) :
    ∀ (l : List Char) (c : Char), (l.dropWhile p).head? = some c → p c = false := by
  intro l
  induction l with
  | nil => intro c h; simp [List.dropWhile] at h
  | cons a t ih =>
    intro c h
    rw [List.dropWhile_cons] at h
    by_cases hp : p a
    · rw [if_pos hp] at h
      exact ih c h
    · rw [if_neg hp] at h
      simp only [List.head?_cons, Option.some.injEq] at h
      subst h
      simpa using hp

/-- Auxiliary: the first character of a stripped list is not whitespace. -/
theorem pyStripList_head (l : List Char) (c : Char)
    (h : (pyStripList l).head? = some c) : pyIsSpace c = false := by
  unfold pyStripList at h
  rw [List.head?_reverse] at h
  obtain ⟨t, ht⟩ := List.dropWhile_suffix (l := (l.dropWhile pyIsSpace).reverse) pyIsSpace
  have hlast : ((l.dropWhile pyIsSpace).reverse).getLast? = some c := by
    rw [← ht, List.getLast?_append, h]
    rfl
  rw [List.getLast?_reverse] at hlast
  exact head?_dropWhile_not pyIsSpace _ c hlast

/-- Auxiliary: the last character of a stripped list is not whitespace. -/
theorem pyStripList_getLast (l : List Char) (c : Char)
    (h : (pyStripList l).getLast? = some c) : pyIsSpace c = false := by
  unfold pyStripList at h
  rw [List.getLast?_reverse] at h
  exact head?_dropWhile_not pyIsSpace _ c h

/-- Auxiliary: `pyStrip` output has no whitespace at either edge. -/
theorem noEdgeSpace_pyStrip (s : String) : noEdgeSpace (pyStrip s) = true := by
  have hd : (pyStrip s).data = pyStripList s.data := rfl
  unfold noEdgeSpace
  rw [hd]
  rcases h1 : (pyStripList s.data).head? with _ | c1 <;>
    rcases h2 : (pyStripList s.data).getLast? with _ | c2
  · simp
  · simp [pyStripList_getLast _ _ h2]
  · simp [pyStripList_head _ _ h1]
  · simp [pyStripList_head _ _ h1, pyStripList_getLast _ _ h2]

set_option maxRecDepth 4096 in
/-- Auxiliary: `Char.ofNat` round-trips on byte values. -/
theorem char_ofNat_toNat_lt : ∀ b : Nat, b < 256 → (Char.ofNat b).toNat = b := by
  decide

/-- Auxiliary: Latin-1 decoding succeeds on every genuine byte list, and
every character it produces has a code point below 256. -/
theorem latin1DecodeChars_total :
    ∀ (l : List Nat), (∀ b ∈ l, b < 256) →
      ∃ cs, latin1DecodeChars l = some cs ∧ ∀ c ∈ cs, c.toNat < 256 := by
  intro l
  induction l with
  | nil => intro _; exact ⟨[], rfl, by simp⟩
  | cons b t ih =>
    intro hb
    have hb1 : b < 256 := hb b (List.mem_cons_self b t)
    obtain ⟨cs, hcs, hbound⟩ := ih (fun x hx => hb x (List.mem_cons_of_mem _ hx))
    refine ⟨Char.ofNat b :: cs, ?_, ?_⟩
    · simp [latin1DecodeChars, hb1, hcs]
    · intro c hc
      rcases List.mem_cons.mp hc with rfl | hc
      · rw [char_ofNat_toNat_lt b hb1]
        exact hb1
      · exact hbound c hc

/-- C1: for every input triple, `extract_file_content` returns a string and
never raises: every run ends in exactly one of the three string-producing
outcomes — the caught-exception placeholder when the base64 decode raises,
the unsupported-type placeholder when no parser matches, or the matched
parser's (total) `parse` result. -/
theorem extract_file_content_never_raises (env : ExternalEnv)
    (base64_data filename mime_type : String) :
    (∃ e, b64decode base64_data = Except.error e ∧
      extract_file_content env base64_data filename mime_type =
        "[处理文件 " ++ filename ++ " 时出错: " ++ e ++ "]") ∨
    (∃ bs, b64decode base64_data = Except.ok bs ∧
      getParser (builtinRegistry env) mime_type filename = none ∧
      extract_file_content env base64_data filename mime_type =
        "[不支持的文件类型: " ++ mime_type ++ " for " ++ filename ++ "]") ∨
    (∃ bs p, b64decode base64_data = Except.ok bs ∧
      getParser (builtinRegistry env) mime_type filename = some p ∧
      extract_file_content env base64_data filename mime_type =
        p.parse bs filename) := by
  cases hb : b64decode base64_data with
  | error e =>
    refine Or.inl ⟨e, rfl, ?_⟩
    unfold extract_file_content
    rw [hb]
  | ok bs =>
    cases hp : getParser (builtinRegistry env) mime_type filename with
    | none =>
      refine Or.inr (Or.inl ⟨bs, rfl, rfl, ?_⟩)
      unfold extract_file_content
      rw [hb, hp]
    | some p =>
      refine Or.inr (Or.inr ⟨bs, p, rfl, rfl, ?_⟩)
      unfold extract_file_content
      rw [hb, hp]

/-- Auxiliary: closed-form description of `get_parser` on the built-in
registry as the priority chain of the three `supports` predicates. -/
theorem getParser_builtin_eq (env : ExternalEnv) (mime_type filename : String) :
    getParser (builtinRegistry env) mime_type filename =
      if PDFParser.supports mime_type filename then some (pdfVariant env)
      else if DocxParser.supports mime_type filename then some (docxVariant env)
      else if TextParser.supports mime_type filename then some textVariant
      else none := by
  unfold getParser builtinRegistry
  by_cases h1 : PDFParser.supports mime_type filename <;>
    by_cases h2 : DocxParser.supports mime_type filename <;>
      by_cases h3 : TextParser.supports mime_type filename <;>
        simp [List.find?, pdfVariant, docxVariant, textVariant, h1, h2, h3]

/-- C2: on the built-in registry, `get_parser` returns the first variant in
the order PDF, Word, Text whose `supports` predicate holds, and `none` when
none holds; in particular whenever the PDF predicate holds the PDF variant
is chosen (even if the text predicate also holds). -/
theorem getParser_first_match (env : ExternalEnv) (mime_type filename : String) :
    (getParser (builtinRegistry env) mime_type filename =
      if PDFParser.supports mime_type filename then some (pdfVariant env)
      else if DocxParser.supports mime_type filename then some (docxVariant env)
      else if TextParser.supports mime_type filename then some textVariant
      else none) ∧
    (PDFParser.supports mime_type filename = true →
      getParser (builtinRegistry env) mime_type filename = some (pdfVariant env)) := by
  refine ⟨getParser_builtin_eq env mime_type filename, fun hp => ?_⟩
  rw [getParser_builtin_eq env mime_type filename, if_pos hp]

/-- C2 witness: with MIME type `text/plain` and filename `report.pdf` both
the PDF and the text predicates hold, and the PDF variant is chosen. -/
theorem getParser_first_match_witness :
    TextParser.supports "text/plain" "report.pdf" = true ∧
    getParser (builtinRegistry trivialEnv) "text/plain" "report.pdf" =
      some (pdfVariant trivialEnv) :=
  ⟨rfl, (getParser_first_match trivialEnv "text/plain" "report.pdf").2 rfl⟩

/-- C3: `TextParser.parse` attempts the decodings in the fixed order UTF-8,
GBK, Latin-1 and returns the first success; in particular on bytes that are
invalid UTF-8 but valid GBK it returns the GBK-decoded string. -/
theorem textParse_decode_order (file_bytes : List Nat) (filename : String) :
    (∀ s, utf8Decode file_bytes = some s →
      TextParser.parse file_bytes filename = s) ∧
    (utf8Decode file_bytes = none →
      ∀ s, gbkDecode file_bytes = some s →
        TextParser.parse file_bytes filename = s) ∧
    (utf8Decode file_bytes = none → gbkDecode file_bytes = none →
      ∀ s, latin1Decode file_bytes = some s →
        TextParser.parse file_bytes filename = s) := by
  refine ⟨?_, ?_, ?_⟩
  · intro s hu
    unfold TextParser.parse
    rw [hu]
  · intro hu s hg
    unfold TextParser.parse
    rw [hu, hg]
  · intro hu hg s hl
    unfold TextParser.parse
    rw [hu, hg, hl]

/-- C3 witness: the bytes `0xB0 0xA1` are invalid UTF-8 but a valid GBK
pair, and `TextParser.parse` returns the GBK-decoded string for them. -/
theorem textParse_decode_order_witness :
    utf8Decode [176, 161] = none ∧
    gbkDecode [176, 161] = some (String.mk [gbkPairChar 176 161]) ∧
    TextParser.parse [176, 161] "b.txt" = String.mk [gbkPairChar 176 161] :=
  ⟨rfl, rfl, (textParse_decode_order [176, 161] "b.txt").2.1 rfl _ rfl⟩

/-- C4 counterexample: on MIME type `application/zip` and filename
`archive.zip` (with a well-formed payload) the facade does not return the
English string the claim names; the diagnostic label in the source is the
Chinese `[不支持的文件类型: ...]`. -/
theorem unsupported_type_cex :
    extract_file_content trivialEnv "aGk=" "archive.zip" "application/zip" ≠
      "[unsupported file type: application/zip for archive.zip]" ∧
    extract_file_content trivialEnv "aGk=" "archive.zip" "application/zip" =
      "[不支持的文件类型: application/zip for archive.zip]" :=
  ⟨by decide, by decide⟩

/-- C4 (amended): for every (mimeType, filename) pair on which none of the
three built-in `supports` predicates holds, `extract_file_content` on a
well-formed base64 payload returns exactly
`[不支持的文件类型: <mimeType> for <filename>]` (the source's label; the
claim's English rendering of the template is not the literal the code
produces). -/
theorem unsupported_type_message (env : ExternalEnv)
    (base64_data filename mime_type : String) (bs : List Nat)
    (hb : b64decode base64_data = Except.ok bs)
    (h1 : PDFParser.supports mime_type filename = false)
    (h2 : DocxParser.supports mime_type filename = false)
    (h3 : TextParser.supports mime_type filename = false) :
    extract_file_content env base64_data filename mime_type =
      "[不支持的文件类型: " ++ mime_type ++ " for " ++ filename ++ "]" := by
  have hg : getParser (builtinRegistry env) mime_type filename = none := by
    rw [getParser_builtin_eq env mime_type filename, h1, h2, h3]
    rfl
  unfold extract_file_content
  rw [hb, hg]

/-- C4 witness: `application/zip` with `archive.zip` matches no built-in
predicate, and the facade returns the unsupported-type placeholder. -/
theorem unsupported_type_message_witness :
    b64decode "aGk=" = Except.ok [104, 105] ∧
    PDFParser.supports "application/zip" "archive.zip" = false ∧
    DocxParser.supports "application/zip" "archive.zip" = false ∧
    TextParser.supports "application/zip" "archive.zip" = false ∧
    extract_file_content trivialEnv "aGk=" "archive.zip" "application/zip" =
      "[不支持的文件类型: application/zip for archive.zip]" :=
  ⟨rfl, rfl, rfl, rfl,
    unsupported_type_message trivialEnv "aGk=" "archive.zip" "application/zip"
      [104, 105] rfl rfl rfl rfl⟩

/-- C5: on the §8 example message — a `type=text` part "hello" followed by
a `type=file`/`source_type=base64` part carrying the base64 of the bytes
`hi` with MIME type `text/plain` and filename `a.txt` — the processor
returns exactly `hello\n\n文件内容 (a.txt):\nhi`; and for every part list
the result is stripped of leading and trailing whitespace. -/
theorem process_content_parts_example (env : ExternalEnv) :
    process_message_content env (MessageContent.parts
      [ContentItem.dict ⟨some "text", some "hello", none, none, none, none⟩,
       ContentItem.dict ⟨some "file", none, some "base64", some "aGk=",
         some "text/plain", some "a.txt"⟩]) =
      "hello\n\n文件内容 (a.txt):\nhi" ∧
    (∀ items,
      noEdgeSpace (process_message_content env (MessageContent.parts items)) = true) := by
  constructor
  · rfl
  · intro items
    show noEdgeSpace (pyStrip (strJoin (items.filterMap (processItem env)))) = true
    exact noEdgeSpace_pyStrip _

/-- C6: `register_parser` appends the new parser at the end of the
sequence: every (mimeType, filename) pair already matched keeps its parser,
and a pair no existing parser matched is routed to the new parser whenever
its `supports` predicate holds. -/
theorem registerParser_extends (ps : List DocumentParser)
    (custom q : DocumentParser) (mime_type filename : String) :
    (getParser ps mime_type filename = some q →
      getParser (registerParser ps custom) mime_type filename = some q) ∧
    (getParser ps mime_type filename = none →
      custom.supports mime_type filename = true →
        getParser (registerParser ps custom) mime_type filename = some custom) := by
  constructor
  · intro h
    unfold getParser registerParser
    unfold getParser at h
    rw [List.find?_append, h]
    rfl
  · intro h hc
    unfold getParser registerParser
    unfold getParser at h
    rw [List.find?_append, h]
    simp [List.find?, hc]

/-- A custom extractor whose `supports` predicate matches `.zip` files,
used to instantiate the registration claim. -/
def zipVariant : DocumentParser :=
  ⟨fun _ filename => strEndsWith (pyLower filename) ".zip",
   fun _ _ => "zip content"⟩

/-- C6 witness: after registering a `.zip` extractor behind the built-ins,
`.pdf` inputs still go to the PDF variant and `.zip` inputs go to the
custom variant. -/
theorem registerParser_extends_witness :
    getParser (builtinRegistry trivialEnv) "application/pdf" "x.pdf" =
      some (pdfVariant trivialEnv) ∧
    getParser (registerParser (builtinRegistry trivialEnv) zipVariant)
      "application/pdf" "x.pdf" = some (pdfVariant trivialEnv) ∧
    getParser (builtinRegistry trivialEnv) "application/zip" "y.zip" = none ∧
    zipVariant.supports "application/zip" "y.zip" = true ∧
    getParser (registerParser (builtinRegistry trivialEnv) zipVariant)
      "application/zip" "y.zip" = some zipVariant := by
  refine ⟨rfl, ?_, rfl, rfl, ?_⟩
  · exact (registerParser_extends (builtinRegistry trivialEnv) zipVariant
      (pdfVariant trivialEnv) "application/pdf" "x.pdf").1 rfl
  · exact (registerParser_extends (builtinRegistry trivialEnv) zipVariant
      zipVariant "application/zip" "y.zip").2 rfl rfl

/-- C7 counterexample: with MIME type `text/plain` and the base64 of the
UTF-8 bytes of `" hi"` (leading space), the facade returns the decoded
string verbatim, which *does* have leading whitespace — `TextParser.parse`
does not strip its result, so the claim's no-edge-whitespace conjunct
fails. -/
theorem text_plain_trim_cex :
    extract_file_content trivialEnv "IGhp" "a.txt" "text/plain" = " hi" ∧
    pyStrip " hi" ≠ " hi" :=
  ⟨by decide, by decide⟩

/-- C7 (amended): with MIME type `text/plain`, a payload whose bytes are
UTF-8-decodable, and a filename not claimed by the PDF or Word extractor,
`extract_file_content` returns exactly the UTF-8-decoded string, verbatim
(it is not trimmed; it is whitespace-free only when the decoded string
itself is). -/
theorem text_plain_utf8_verbatim (env : ExternalEnv)
    (base64_data filename : String) (bs : List Nat) (s : String)
    (hb : b64decode base64_data = Except.ok bs)
    (hu : utf8Decode bs = some s)
    (h1 : PDFParser.supports "text/plain" filename = false)
    (h2 : DocxParser.supports "text/plain" filename = false) :
    extract_file_content env base64_data filename "text/plain" = s := by
  have ht : TextParser.supports "text/plain" filename = true := rfl
  have hg : getParser (builtinRegistry env) "text/plain" filename =
      some textVariant := by
    rw [getParser_builtin_eq env "text/plain" filename, h1, h2]
    simp [ht]
  unfold extract_file_content
  rw [hb, hg]
  show TextParser.parse bs filename = s
  unfold TextParser.parse
  rw [hu]

/-- C7 witness: the base64 of `hi` under MIME type `text/plain` and
filename `a.txt` extracts to exactly `hi`. -/
theorem text_plain_utf8_verbatim_witness :
    b64decode "aGk=" = Except.ok [104, 105] ∧
    utf8Decode [104, 105] = some "hi" ∧
    PDFParser.supports "text/plain" "a.txt" = false ∧
    DocxParser.supports "text/plain" "a.txt" = false ∧
    extract_file_content trivialEnv "aGk=" "a.txt" "text/plain" = "hi" :=
  ⟨rfl, by decide, rfl, rfl,
    text_plain_utf8_verbatim trivialEnv "aGk=" "a.txt" [104, 105] "hi"
      rfl (by decide) rfl rfl⟩

/-- A message whose object lacks `model_copy` and whose content is a part
list (any non-pydantic object with a `content` attribute). -/
def plainDictMsg : PyMessage :=
  ⟨MessageContent.parts [ContentItem.str "hello"], false, []⟩

/-- C8 counterexample: for a message without `model_copy`,
`process_messages` assigns the processed content to the caller's original
object (`processed_message = message` aliases it), so the original *is*
modified. -/
theorem process_messages_mutation_cex :
    messagesAfterCall trivialEnv [plainDictMsg] ≠ [plainDictMsg] := by
  decide

/-- C8 (amended): `process_messages` returns a list of the same length in
which each message's content is replaced by the processed content and
every other field is unchanged; the caller's original objects are
unmodified for messages that support `model_copy` (pydantic messages) —
a message without `model_copy` is updated in place instead. -/
theorem process_messages_frame (env : ExternalEnv) (ms : List PyMessage) :
    (process_messages env ms).length = ms.length ∧
    (messagesAfterCall env ms).length = ms.length ∧
    (∀ i (h1 : i < (process_messages env ms).length) (h2 : i < ms.length),
      ((process_messages env ms).get ⟨i, h1⟩).content =
          MessageContent.str
            (process_message_content env ((ms.get ⟨i, h2⟩).content)) ∧
        ((process_messages env ms).get ⟨i, h1⟩).hasModelCopy =
          (ms.get ⟨i, h2⟩).hasModelCopy ∧
        ((process_messages env ms).get ⟨i, h1⟩).otherFields =
          (ms.get ⟨i, h2⟩).otherFields) ∧
    (∀ i (h2 : i < ms.length) (h3 : i < (messagesAfterCall env ms).length),
      (ms.get ⟨i, h2⟩).hasModelCopy = true →
        (messagesAfterCall env ms).get ⟨i, h3⟩ = ms.get ⟨i, h2⟩) := by
  refine ⟨by simp [process_messages], by simp [messagesAfterCall], ?_, ?_⟩
  · intro i h1 h2
    simp [process_messages, processOneMessage, List.get_eq_getElem,
      List.getElem_map]
  · intro i h2 h3 hc
    rw [List.get_eq_getElem] at hc
    simp [messagesAfterCall, List.get_eq_getElem, List.getElem_map, hc]

/-- A pydantic-style message (has `model_copy`) with an extra field. -/
def pydanticMsg : PyMessage :=
  ⟨MessageContent.parts [ContentItem.str "hello"], true, [("id", "1")]⟩

/-- C8 witness: on a one-element list holding a `model_copy`-capable
message, the returned message carries the processed content and the
original object is untouched. -/
theorem process_messages_frame_witness :
    ((process_messages trivialEnv [pydanticMsg]).get ⟨0, by decide⟩).content =
        MessageContent.str
          (process_message_content trivialEnv pydanticMsg.content) ∧
      (messagesAfterCall trivialEnv [pydanticMsg]).get ⟨0, by decide⟩ =
        pydanticMsg := by
  have h := process_messages_frame trivialEnv [pydanticMsg]
  exact ⟨(h.2.2.1 0 (by decide) (by decide)).1,
    h.2.2.2 0 (by decide) (by decide) rfl⟩

/-- C9: processing is idempotent — a plain-string content (in particular
any already-processed content) passes through unchanged, so processing
twice equals processing once. -/
theorem process_content_idempotent (env : ExternalEnv) :
    (∀ s, process_message_content env (MessageContent.str s) = s) ∧
    (∀ content,
      process_message_content env
          (MessageContent.str (process_message_content env content)) =
        process_message_content env content) :=
  ⟨fun _ => rfl, fun _ => rfl⟩

/-- C10: Latin-1 decoding succeeds on every byte sequence, so whenever the
UTF-8 and GBK decodings both fail, `TextParser.parse` returns the Latin-1
decoding — the cannot-decode placeholder branch is unreachable (the result
cannot even coincide with the placeholder text, whose label contains
characters above U+00FF). -/
theorem latin1_fallback (file_bytes : List Nat) (filename : String)
    (hbytes : ∀ b ∈ file_bytes, b < 256)
    (hu : utf8Decode file_bytes = none) (hg : gbkDecode file_bytes = none) :
    ∃ s, latin1Decode file_bytes = some s ∧
      TextParser.parse file_bytes filename = s ∧
      s ≠ "[无法解码文本文件 " ++ filename ++ "]" := by
  obtain ⟨cs, hcs, hbound⟩ := latin1DecodeChars_total file_bytes hbytes
  have hl : latin1Decode file_bytes = some (String.mk cs) := by
    unfold latin1Decode
    rw [hcs]
    rfl
  refine ⟨String.mk cs, hl, ?_, ?_⟩
  · unfold TextParser.parse
    rw [hu, hg, hl]
  · intro heq
    have hmem : ('无' : Char) ∈ cs := by
      have hph : ('无' : Char) ∈ ("[无法解码文本文件 " ++ filename ++ "]").data := by
        rw [String.data_append, String.data_append]
        exact List.mem_append_left _ (List.mem_append_left _ (by decide))
      rw [← heq] at hph
      exact hph
    exact absurd (hbound '无' hmem) (by decide)

/-- C10 witness: the single byte `0xFF` is invalid UTF-8 and an invalid GBK
lead byte, and `TextParser.parse` returns its Latin-1 decoding. -/
theorem latin1_fallback_witness :
    (∀ b ∈ [255], b < 256) ∧
    utf8Decode [255] = none ∧ gbkDecode [255] = none ∧
    ∃ s, latin1Decode [255] = some s ∧
      TextParser.parse [255] "c.txt" = s ∧
      s ≠ "[无法解码文本文件 " ++ "c.txt" ++ "]" :=
  ⟨by decide, rfl, rfl, latin1_fallback [255] "c.txt" (by decide) rfl rfl⟩
